import Mathlib

/-!
Verification of the custom-field typing and filtering engine of the
`clickuphelper` package (`clickuphelper/__init__.py`).

The development shallowly embeds the Python code that the claims touch:

* `PyVal` models the Python values that flow through the engine
  (ints, floats as exact rationals, strings, lists, `None`,
  `datetime` results of `ts_ms_to_dt`, and opaque JSON objects such as
  task references and attachment descriptors).
* `PyErr` models the exception kinds the code raises and catches.
  Fallible Python code becomes `Except PyErr _`.
* `Task.get_field` (field normalization), `Tasks._evaluate_filter`,
  `Task._evaluate_subtask_filter`, `Tasks.filter_by_custom_fields`,
  `Task.get_filtered_subtasks` and the payload translation of
  `Task.post_custom_field` are embedded definition by definition.

Modelling notes, stated once here:

* Python `float` is modelled as `ℚ`: every float literal the claims
  exercise is an exact decimal, and no claim depends on binary rounding.
  Non-finite literals (`inf`/`nan`) are outside the model.
* `str.lower()` is modelled on ASCII letters (the engine only ever
  lowercases caller-supplied filter operands and field text).
* The regular-expression engine (`re.search`) is external to the module;
  the evaluators are parameterized by a `matcher` function whose
  `.error` result models `re.error`.
* Dropdown/label option records are modelled with their `id`, `name`,
  `label` and `orderindex` keys present, as the remote API delivers them.
-/

namespace Clickuphelper

/-- Python values flowing through the engine. -/
inductive PyVal where
  | vnone
  | vint (n : ℤ)
  | vfloat (q : ℚ)
  | vstr (s : String)
  | vlist (xs : List PyVal)
  | vdt (ms : ℚ)
  | vobj (tag : String)

/-- Exception kinds raised and caught by the embedded code.
`missingCustomField` and `missingCustomFieldValue` are the module's own
`KeyError` subclasses; `keyError` is a plain `KeyError` (e.g. a missing
`"value"` key); `typeMismatch`, `timestampUnit`, `labelResolution` and
`filterPrecondition` are the `ValueError`s the module raises. -/
inductive PyErr where
  | missingCustomField
  | missingCustomFieldValue
  | keyError
  | typeMismatch
  | timestampUnit
  | labelResolution
  | filterPrecondition
  | typeError
  | indexError
  | attributeError
  | notImplementedError
deriving DecidableEq, Repr

/-- Which error kinds are Python `ValueError`s (caught by `except ValueError`). -/
def PyErr.isValueError : PyErr → Bool
  | .typeMismatch => true
  | .timestampUnit => true
  | .labelResolution => true
  | .filterPrecondition => true
  | _ => false

/-- The `FilterOperator` enum of the source. -/
inductive FilterOperator where
  | EQUALS
  | NOT_EQUALS
  | GREATER_THAN
  | GREATER_THAN_OR_EQUAL
  | LESS_THAN
  | LESS_THAN_OR_EQUAL
  | CONTAINS
  | STARTS_WITH
  | REGEX
  | IN
  | IS_SET
  | IS_NOT_SET
deriving DecidableEq, Repr

/-- The `CustomFieldFilter` value object: (field name, operator, operand).
An absent operand is `PyVal.vnone` (Python default `value=None`). -/
structure CustomFieldFilter where
  field_name : String
  op : FilterOperator
  value : PyVal

/-- One entry of a field's `type_config.options` list. -/
structure FieldOption where
  oid : String
  name : String
  label : String
  orderindex : ℤ
deriving DecidableEq, Repr

/-- A raw custom-field record.  `value = none` models the `"value"` key
being absent from the JSON record (a declared-but-unset field);
`type_config = none` models an absent `"type_config"` key. -/
structure CustomField where
  name : String
  fid : String
  ftype : String
  value : Option PyVal
  type_config : Option (List FieldOption)

/-- The raw JSON record of one subtask as embedded in a parent task. -/
structure SubtaskData where
  sid : String
  custom_fields : List CustomField

/-- A `Task` object: raw custom-field list plus the constructor flags that
govern normalization (`except_missing_cf_value`) and subtask filtering
(`include_subtasks`).  `subtasks = none` models the `'subtasks'` key being
absent from the fetched record.  (Display metadata such as name or status
plays no part in the claims and is elided.) -/
structure PyTask where
  tid : String
  custom_fields : List CustomField
  subtasks : Option (List SubtaskData)
  include_subtasks : Bool
  except_missing_cf_value : Bool

/-! ### Character/string primitives

Core `String` functions such as `toLower` and `trim` are implemented on
substrings and do not reduce in the kernel, so the few string operations
the engine needs are implemented here over `List Char`. -/

/-- ASCII lower-casing of one character (model of `str.lower` per char). -/
def lowerCh (c : Char) : Char :=
  if 'A' ≤ c ∧ c ≤ 'Z' then Char.ofNat (c.toNat + 32) else c

/-- Model of Python `str.lower()`. -/
def pyLower (s : String) : String := ⟨s.data.map lowerCh⟩

/-- Strip leading and trailing whitespace (Python `int`/`float` accept it). -/
def trimChars (cs : List Char) : List Char :=
  ((cs.dropWhile Char.isWhitespace).reverse.dropWhile Char.isWhitespace).reverse

/-- Is `p` a prefix of `cs` (character-exact)? -/
def listStarts : List Char → List Char → Bool
  | [], _ => true
  | _ :: _, [] => false
  | p :: ps, c :: cs => p == c && listStarts ps cs

/-- Does `cs` contain `n` as a contiguous subsequence?  Model of Python's
substring `in` (an empty needle is contained in everything). -/
def listContainsSeq (n : List Char) : List Char → Bool
  | [] => n.isEmpty
  | c :: cs => listStarts n (c :: cs) || listContainsSeq n cs

/-- Model of `needle in hay` on Python strings. -/
def strContains (hay needle : String) : Bool :=
  listContainsSeq needle.data hay.data

/-- Model of `hay.startswith(needle)` on Python strings. -/
def strStarts (hay needle : String) : Bool :=
  listStarts needle.data hay.data

/-- Lexicographic comparison of char lists by code point (Python `str` order). -/
def strCmpL : List Char → List Char → Ordering
  | [], [] => .eq
  | [], _ :: _ => .lt
  | _ :: _, [] => .gt
  | a :: as, b :: bs =>
    if a.toNat < b.toNat then .lt
    else if b.toNat < a.toNat then .gt
    else strCmpL as bs

/-- Python `str` ordering. -/
def strCmp (a b : String) : Ordering := strCmpL a.data b.data

/-! ### Numeric parsing: models of Python `int(str)` and `float(str)` -/

/-- Accumulate a digit run into a natural number. -/
def natOfDigits : List Char → ℕ → ℕ
  | [], acc => acc
  | c :: rest, acc => natOfDigits rest (acc * 10 + (c.toNat - 48))

/-- Parse a nonempty all-digit run; `none` otherwise. -/
def digitsVal (cs : List Char) : Option ℕ :=
  if cs.isEmpty then none
  else if cs.all Char.isDigit then some (natOfDigits cs 0)
  else none

/-- Model of Python `int(s)` on a string: optional sign, nonempty digit run,
surrounding whitespace allowed.  `none` models the `ValueError`. -/
def pyIntOfStr (s : String) : Option ℤ :=
  match trimChars s.data with
  | '+' :: rest => (digitsVal rest).map Int.ofNat
  | '-' :: rest => (digitsVal rest).map (fun n => -(n : ℤ))
  | cs => (digitsVal cs).map Int.ofNat

/-- Parse the optional exponent suffix of a float literal; `m` and `fracLen`
describe the mantissa already consumed. -/
def pyFloatExp (m : ℕ) (fracLen : ℕ) : List Char → Option ℚ
  | [] => some (mkRat m (10 ^ fracLen))
  | e :: rest =>
    if e == 'e' || e == 'E' then
      let signed : Bool × List Char :=
        match rest with
        | '+' :: t => (false, t)
        | '-' :: t => (true, t)
        | t => (false, t)
      match digitsVal signed.2 with
      | some ex =>
        if signed.1 then some (mkRat m (10 ^ fracLen * 10 ^ ex))
        else some (mkRat (m * 10 ^ ex) (10 ^ fracLen))
      | none => none
    else none

/-- Parse the unsigned body of a float literal: `digits[.digits][exp]`,
with at least one mantissa digit. -/
def pyFloatBody (cs : List Char) : Option ℚ :=
  let ip := cs.takeWhile Char.isDigit
  let rest1 := cs.dropWhile Char.isDigit
  match rest1 with
  | '.' :: rest2 =>
    let fp := rest2.takeWhile Char.isDigit
    let rest3 := rest2.dropWhile Char.isDigit
    if ip.isEmpty && fp.isEmpty then none
    else pyFloatExp (natOfDigits (ip ++ fp) 0) fp.length rest3
  | rest => if ip.isEmpty then none else pyFloatExp (natOfDigits ip 0) 0 rest

/-- Model of Python `float(s)` on a finite decimal literal. -/
def pyFloatOfStr (s : String) : Option ℚ :=
  match trimChars s.data with
  | '+' :: rest => pyFloatBody rest
  | '-' :: rest => (pyFloatBody rest).map Neg.neg
  | cs => pyFloatBody cs

/-- Truncation toward zero: Python `int(float)`. -/
def ratTrunc (q : ℚ) : ℤ := Int.tdiv q.num q.den

/-- Model of Python `int(v)`.  Strings parse strictly (`ValueError`,
modelled `typeMismatch`, on failure); floats truncate toward zero;
other types raise `TypeError`. -/
def pyIntOfVal : PyVal → Except PyErr ℤ
  | .vint n => .ok n
  | .vfloat q => .ok (ratTrunc q)
  | .vstr s =>
    match pyIntOfStr s with
    | some n => .ok n
    | none => .error .typeMismatch
  | _ => .error .typeError

/-- Model of Python `float(v)`. -/
def pyFloatOfVal : PyVal → Except PyErr ℚ
  | .vint n => .ok (mkRat n 1)
  | .vfloat q => .ok q
  | .vstr s =>
    match pyFloatOfStr s with
    | some q => .ok q
    | none => .error .typeMismatch
  | _ => .error .typeError

/-! ### Calendar: the year of an epoch-milliseconds timestamp

`datetime.datetime.fromtimestamp(ts / 1000, datetime.UTC).year`, i.e. the
proleptic-Gregorian calendar year of the UTC instant `ts` milliseconds
after the epoch.  `yearOfDays` is the standard civil-from-days algorithm
restricted to the year. -/

/-- Calendar year containing day `z` of the epoch (day 0 = 1970-01-01). -/
def yearOfDays (z : ℤ) : ℤ :=
  let zz := z + 719468
  let era := Int.fdiv zz 146097
  let doe : ℕ := (zz - era * 146097).toNat
  let yoe : ℕ := (doe - doe / 1460 + doe / 36524 - doe / 146096) / 365
  let y : ℤ := (yoe : ℤ) + era * 400
  let doy : ℕ := doe - (365 * yoe + yoe / 4 - yoe / 100)
  let mp : ℕ := (5 * doy + 2) / 153
  let m : ℕ := if mp < 10 then mp + 3 else mp - 9
  if m ≤ 2 then y + 1 else y

/-- Day of the epoch containing the instant `ms` milliseconds after it
(floor division; `ms.den` is positive, so this is `⌊ms / 86400000⌋`). -/
def daysOfMs (ms : ℚ) : ℤ := Int.fdiv ms.num (ms.den * 86400000)

/-- UTC calendar year of the instant `ms` milliseconds after the epoch. -/
def yearOfMs (ms : ℚ) : ℤ := yearOfDays (daysOfMs ms)

/-- The numeric coercion at the head of `ts_ms_to_dt`: a string input is
passed through `float` (its `ValueError` propagates); ints and floats are
used as-is; anything else would make `ts / 1000` raise `TypeError`. -/
def msOfVal : PyVal → Except PyErr ℚ
  | .vstr s =>
    match pyFloatOfStr s with
    | some q => .ok q
    | none => .error .typeMismatch
  | .vint n => .ok (mkRat n 1)
  | .vfloat q => .ok q
  | _ => .error .typeError

/-- `ts_ms_to_dt(ts, except_if_year_1970)`: converts epoch milliseconds to
a UTC datetime (represented by its exact epoch-millisecond value) and, when
the flag is set, rejects instants whose calendar year is 1970. -/
def ts_ms_to_dt (ts : PyVal) (except_if_year_1970 : Bool) : Except PyErr ℚ := do
  let ms ← msOfVal ts
  if except_if_year_1970 = true ∧ yearOfMs ms = 1970 then
    .error .timestampUnit
  else
    .ok ms

/-! ### Python equality and ordering -/

/-- Ordering of two rationals. -/
def qCmp (a b : ℚ) : Ordering :=
  if Rat.blt a b then .lt else if a == b then .eq else .gt

mutual

/-- Model of Python `==` on the values the engine handles: numeric types
compare by value across `int`/`float`; lists compare elementwise; values of
unrelated types compare unequal without raising. -/
def pyEq : PyVal → PyVal → Bool
  | .vint a, .vint b => a == b
  | .vint a, .vfloat q => mkRat a 1 == q
  | .vfloat q, .vint a => q == mkRat a 1
  | .vfloat a, .vfloat b => a == b
  | .vstr a, .vstr b => a == b
  | .vnone, .vnone => true
  | .vdt a, .vdt b => a == b
  | .vobj a, .vobj b => a == b
  | .vlist as, .vlist bs => pyEqList as bs
  | _, _ => false

/-- Elementwise `==` of two Python lists. -/
def pyEqList : List PyVal → List PyVal → Bool
  | [], [] => true
  | a :: as, b :: bs => pyEq a b && pyEqList as bs
  | _, _ => false

end

mutual

/-- Model of Python ordering comparison: defined on numeric pairs, string
pairs, datetime pairs and list pairs; every other pair raises `TypeError`. -/
def pyCmp : PyVal → PyVal → Except PyErr Ordering
  | .vint a, .vint b => .ok (qCmp (mkRat a 1) (mkRat b 1))
  | .vint a, .vfloat q => .ok (qCmp (mkRat a 1) q)
  | .vfloat q, .vint a => .ok (qCmp q (mkRat a 1))
  | .vfloat a, .vfloat b => .ok (qCmp a b)
  | .vstr a, .vstr b => .ok (strCmp a b)
  | .vdt a, .vdt b => .ok (qCmp a b)
  | .vlist as, .vlist bs => pyCmpList as bs
  | _, _ => .error .typeError

/-- Python list comparison: skip `==`-equal prefixes, then compare the
first differing elements (which may itself raise `TypeError`). -/
def pyCmpList : List PyVal → List PyVal → Except PyErr Ordering
  | [], [] => .ok .eq
  | [], _ :: _ => .ok .lt
  | _ :: _, [] => .ok .gt
  | a :: as, b :: bs => if pyEq a b then pyCmpList as bs else pyCmp a b

end

/-! ### Field catalog (`Task.custom_fields`, `get_field_obj`, `get_field`) -/

/-- The name-indexed catalog built by
`self.custom_fields = {item["name"]: item for item in task["custom_fields"]}`:
on duplicate names the later record overwrites the earlier one. -/
def lookupField : List CustomField → String → Option CustomField
  | [], _ => none
  | f :: rest, n =>
    match lookupField rest n with
    | some g => some g
    | none => if f.name = n then some f else none

/-- `Task.get_field_obj`: catalog lookup, `MissingCustomField` when the
name is not declared. -/
def get_field_obj (task : PyTask) (name : String) : Except PyErr CustomField :=
  match lookupField task.custom_fields name with
  | some f => .ok f
  | none => .error .missingCustomField

/-- `field["value"]`: a plain `KeyError` when the key is absent. -/
def getValue (fld : CustomField) : Except PyErr PyVal :=
  match fld.value with
  | some v => .ok v
  | none => .error .keyError

/-- `field["type_config"]["options"]`: a plain `KeyError` when absent. -/
def getOptions (fld : CustomField) : Except PyErr (List FieldOption) :=
  match fld.type_config with
  | some opts => .ok opts
  | none => .error .keyError

/-- Python list indexing `opts[v]`: integer indices only (negative indices
count from the end), `IndexError` out of range, `TypeError` otherwise. -/
def pyIndex (opts : List FieldOption) (v : PyVal) : Except PyErr FieldOption :=
  match v with
  | .vint n =>
    let m : ℤ := if n < 0 then n + opts.length else n
    if h : 0 ≤ m ∧ m.toNat < opts.length then .ok (opts.get ⟨m.toNat, h.2⟩)
    else .error .indexError
  | _ => .error .typeError

/-- The `id → label` map of a labels field
(`{option["id"]: option["label"] for option in options}`, later entries
overwrite earlier ones). -/
def idToLabel : List FieldOption → String → Option String
  | [], _ => none
  | o :: rest, i =>
    match idToLabel rest i with
    | some l => some l
    | none => if o.oid = i then some o.label else none

/-- Normalization of a labels field value: map each id through the
`id → label` map, silently dropping ids with no match. -/
def labelsDecode (opts : List FieldOption) : List PyVal → List PyVal
  | [] => []
  | .vstr i :: rest =>
    match idToLabel opts i with
    | some l => .vstr l :: labelsDecode opts rest
    | none => labelsDecode opts rest
  | _ :: rest => labelsDecode opts rest

/-- Python `len(v)` followed by the single-element unwrap of the `tasks`
branch: `if len(v) == 1: v = v[0]`.  `len` is defined on lists and strings;
other values raise `TypeError`. -/
def tasksUnwrap : PyVal → Except PyErr PyVal
  | .vlist [x] => .ok x
  | .vlist xs => .ok (.vlist xs)
  | .vstr s => .ok (.vstr s)
  | _ => .error .typeError

/-- The `try:` body of `Task.get_field`: dispatch on the declared type tag,
one normalization rule per type, `NotImplementedError` for unknown tags. -/
def normalizeBody (fld : CustomField) : Except PyErr PyVal :=
  if fld.ftype = "number" then do
    let v ← getValue fld
    match pyIntOfVal v with
    | .ok n => .ok (.vint n)
    | .error e =>
      if e.isValueError then
        match pyFloatOfVal v with
        | .ok q => .ok (.vfloat q)
        | .error e2 => if e2.isValueError then .error .typeMismatch else .error e2
      else .error e
  else if fld.ftype = "drop_down" then do
    let idx ← getValue fld
    let opts ← getOptions fld
    let opt ← pyIndex opts idx
    .ok (.vstr opt.name)
  else if fld.ftype = "labels" then do
    let v ← getValue fld
    let opts ← getOptions fld
    match v with
    | .vlist ids => .ok (.vlist (labelsDecode opts ids))
    | _ => .error .typeError
  else if fld.ftype = "url" then getValue fld
  else if fld.ftype = "text" then getValue fld
  else if fld.ftype = "tasks" then do
    let v ← getValue fld
    tasksUnwrap v
  else if fld.ftype = "date" then do
    let v ← getValue fld
    let ms ← ts_ms_to_dt v true
    .ok (.vdt ms)
  else if fld.ftype = "attachment" then getValue fld
  else if fld.ftype = "short_text" then getValue fld
  else .error .notImplementedError

/-- `Task.get_field` after the catalog lookup: run the normalization body;
a `KeyError` (missing raw value) is converted per the task's
`except_missing_cf_value` policy into `MissingCustomFieldValue` or a
`None` result.  All other errors propagate. -/
def normalizeField (except_missing_cf_value : Bool) (fld : CustomField) :
    Except PyErr PyVal :=
  match normalizeBody fld with
  | .error .keyError =>
    if except_missing_cf_value then .error .missingCustomFieldValue else .ok .vnone
  | r => r

/-- `Task.get_field`: catalog lookup plus normalization. -/
def get_field (task : PyTask) (name : String) : Except PyErr PyVal :=
  match lookupField task.custom_fields name with
  | some fld => normalizeField task.except_missing_cf_value fld
  | none => .error .missingCustomField

/-! ### Predicate evaluation

Both evaluators share the operator dispatch that follows the
`# For all other operators, get the field value` block — the two source
bodies are verbatim duplicates from there on.  `matcher pat s` models
`re.search(pat, s) is not None`; its `.error` result models `re.error`. -/

/-- The shared operator dispatch of `Tasks._evaluate_filter` and
`Task._evaluate_subtask_filter`, applied to an already-normalized field
value `tv` and the filter operand `fv`. -/
def applyOp (matcher : String → String → Except Unit Bool)
    (op : FilterOperator) (tv fv : PyVal) : Except PyErr Bool :=
  match op with
  | .EQUALS => .ok (pyEq tv fv)
  | .NOT_EQUALS => .ok (!pyEq tv fv)
  | .GREATER_THAN =>
    match pyCmp tv fv with
    | .ok o => .ok (o == .gt)
    | .error .typeError => .ok false
    | .error e => .error e
  | .GREATER_THAN_OR_EQUAL =>
    match pyCmp tv fv with
    | .ok o => .ok (o != .lt)
    | .error .typeError => .ok false
    | .error e => .error e
  | .LESS_THAN =>
    match pyCmp tv fv with
    | .ok o => .ok (o == .lt)
    | .error .typeError => .ok false
    | .error e => .error e
  | .LESS_THAN_OR_EQUAL =>
    match pyCmp tv fv with
    | .ok o => .ok (o != .gt)
    | .error .typeError => .ok false
    | .error e => .error e
  | .CONTAINS =>
    match tv with
    | .vstr s =>
      match fv with
      | .vstr f => .ok (strContains (pyLower s) (pyLower f))
      | _ => .error .attributeError
    | _ => .ok false
  | .STARTS_WITH =>
    match tv with
    | .vstr s =>
      match fv with
      | .vstr f => .ok (strStarts (pyLower s) (pyLower f))
      | _ => .error .attributeError
    | _ => .ok false
  | .REGEX =>
    match tv with
    | .vstr s =>
      match fv with
      | .vstr pat =>
        match matcher pat s with
        | .ok b => .ok b
        | .error _ => .ok false
      | _ => .error .typeError
    | _ => .ok false
  | .IN =>
    match tv with
    | .vlist tvs =>
      match fv with
      | .vlist fvs => .ok (tvs.any (fun t => fvs.any (pyEq t)))
      | _ => .ok (tvs.any (pyEq fv))
    | _ =>
      match fv with
      | .vlist fvs => .ok (fvs.any (pyEq tv))
      | _ => .ok (pyEq tv fv)
  | .IS_SET => .ok false
  | .IS_NOT_SET => .ok false

/-- `Tasks._evaluate_filter`: the collection evaluator.  Its
`IS_SET`/`IS_NOT_SET` prelude catches only `MissingCustomFieldValue`;
for every other operator both missing-field exceptions become `False`. -/
def evaluateFilter (matcher : String → String → Except Unit Bool)
    (task : PyTask) (f : CustomFieldFilter) : Except PyErr Bool :=
  match f.op with
  | .IS_SET =>
    match get_field task f.field_name with
    | .ok _ => .ok true
    | .error .missingCustomFieldValue => .ok false
    | .error e => .error e
  | .IS_NOT_SET =>
    match get_field task f.field_name with
    | .ok _ => .ok false
    | .error .missingCustomFieldValue => .ok true
    | .error e => .error e
  | op =>
    match get_field task f.field_name with
    | .ok tv => applyOp matcher op tv f.value
    | .error .missingCustomFieldValue => .ok false
    | .error .missingCustomField => .ok false
    | .error e => .error e

/-- `Task._evaluate_subtask_filter`: identical to the collection evaluator
except that its `IS_SET`/`IS_NOT_SET` prelude catches both
`MissingCustomFieldValue` and `MissingCustomField`. -/
def evaluateSubtaskFilter (matcher : String → String → Except Unit Bool)
    (task : PyTask) (f : CustomFieldFilter) : Except PyErr Bool :=
  match f.op with
  | .IS_SET =>
    match get_field task f.field_name with
    | .ok _ => .ok true
    | .error .missingCustomFieldValue => .ok false
    | .error .missingCustomField => .ok false
    | .error e => .error e
  | .IS_NOT_SET =>
    match get_field task f.field_name with
    | .ok _ => .ok false
    | .error .missingCustomFieldValue => .ok true
    | .error .missingCustomField => .ok true
    | .error e => .error e
  | op =>
    match get_field task f.field_name with
    | .ok tv => applyOp matcher op tv f.value
    | .error .missingCustomFieldValue => .ok false
    | .error .missingCustomField => .ok false
    | .error e => .error e

/-! ### Collection filter engine -/

/-- The AND loop of `Tasks.filter_by_custom_fields` for one task:
evaluate each filter in order, stopping at the first non-match. -/
def evalAllFilters (matcher : String → String → Except Unit Bool)
    (task : PyTask) : List CustomFieldFilter → Except PyErr Bool
  | [] => .ok true
  | f :: fs => do
    let b ← evaluateFilter matcher task f
    if b then evalAllFilters matcher task fs else .ok false

/-- `Tasks.filter_by_custom_fields`: iterate the collection in insertion
order, keeping the tasks on which every filter matches.  An exception
raised while evaluating any task propagates out of the whole call. -/
def filter_by_custom_fields (matcher : String → String → Except Unit Bool)
    (tasks : List (String × PyTask)) (filters : List CustomFieldFilter) :
    Except PyErr (List (String × PyTask)) :=
  match tasks with
  | [] => .ok []
  | (tid, t) :: rest => do
    let b ← evalAllFilters matcher t filters
    let tail ← filter_by_custom_fields matcher rest filters
    if b then .ok ((tid, t) :: tail) else .ok tail

/-! ### Subtask filtering (`Task.get_filtered_subtasks`) -/

/-- `Task(subtask_data, raw_task=subtask_data)`: the Task object built for
each embedded subtask record, with the constructor defaults
`include_subtasks=False`, `except_missing_cf_value=True`. -/
def makeSubtask (d : SubtaskData) : PyTask :=
  ⟨d.sid, d.custom_fields, none, false, true⟩

/-- The AND loop of `get_filtered_subtasks` for one subtask. -/
def evalAllSubtaskFilters (matcher : String → String → Except Unit Bool)
    (task : PyTask) : List CustomFieldFilter → Except PyErr Bool
  | [] => .ok true
  | f :: fs => do
    let b ← evaluateSubtaskFilter matcher task f
    if b then evalAllSubtaskFilters matcher task fs else .ok false

/-- The per-subtask loop of `get_filtered_subtasks`. -/
def filterSubtasksLoop (matcher : String → String → Except Unit Bool)
    (filters : List CustomFieldFilter) :
    List SubtaskData → Except PyErr (List SubtaskData)
  | [] => .ok []
  | d :: rest => do
    let b ← evalAllSubtaskFilters matcher (makeSubtask d) filters
    let tail ← filterSubtasksLoop matcher filters rest
    if b then .ok (d :: tail) else .ok tail

/-- `Task.get_filtered_subtasks`: raises (a `ValueError`, modelled
`filterPrecondition`) unless the task was constructed with
`include_subtasks=True`; returns `[]` when the fetched record has no
(or an empty) `subtasks` list; otherwise returns the subtask records on
which every filter matches. -/
def get_filtered_subtasks (matcher : String → String → Except Unit Bool)
    (task : PyTask) (filters : List CustomFieldFilter) :
    Except PyErr (List SubtaskData) :=
  if task.include_subtasks = false then .error .filterPrecondition
  else
    match task.subtasks with
    | none => .ok []
    | some [] => .ok []
    | some subs => filterSubtasksLoop matcher filters subs

/-! ### Field write encoder (`Task.post_custom_field` payload translation) -/

/-- The `name → orderindex` map built for a dropdown write
(`lookup[item["name"]] = item["orderindex"]`, later entries overwrite). -/
def nameToOrder : List FieldOption → String → Option ℤ
  | [], _ => none
  | o :: rest, s =>
    match nameToOrder rest s with
    | some i => some i
    | none => if o.name = s then some o.orderindex else none

/-- The `label → id` map built for a labels write
(`{option["label"]: option["id"]}`, later entries overwrite). -/
def labelToId : List FieldOption → String → Option String
  | [], _ => none
  | o :: rest, l =>
    match labelToId rest l with
    | some i => some i
    | none => if o.label = l then some o.oid else none

/-- The `[label_lookup[label_name] for label_name in value]` comprehension:
any unknown label raises the descriptive `ValueError`
(modelled `labelResolution`); a non-string hashable element misses the
lookup the same way, and an unhashable element raises `TypeError`. -/
def labelIdsEncode (opts : List FieldOption) :
    List PyVal → Except PyErr (List String)
  | [] => .ok []
  | .vstr l :: rest =>
    match labelToId opts l with
    | some i => do
      let tail ← labelIdsEncode opts rest
      .ok (i :: tail)
    | none => .error .labelResolution
  | .vlist _ :: _ => .error .typeError
  | _ :: _ => .error .labelResolution

/-- The payload-value translation of `Task.post_custom_field`: given the
declared type of the named field, translate the caller-supplied value into
the wire value the payload carries.  (The `use_time` flag only populates
`payload["value_options"]` and never alters the value itself.) -/
def encodeValue (task : PyTask) (field : String) (value : PyVal) :
    Except PyErr PyVal := do
  let fld ← get_field_obj task field
  if fld.ftype = "drop_down" then
    match pyIntOfVal value with
    | .ok _ => .ok value
    | .error e =>
      if e.isValueError then do
        let opts ← getOptions fld
        match value with
        | .vstr s =>
          match nameToOrder opts s with
          | some oi => .ok (.vint oi)
          | none => .ok value
        | _ => .ok value
      else .error e
  else if fld.ftype = "labels" then do
    let opts ← getOptions fld
    match value with
    | .vstr s =>
      match labelIdsEncode opts [PyVal.vstr s] with
      | .ok ids => .ok (.vlist (ids.map PyVal.vstr))
      | .error e => .error e
    | .vlist xs =>
      match labelIdsEncode opts xs with
      | .ok ids => .ok (.vlist (ids.map PyVal.vstr))
      | .error e => .error e
    | _ => .error .typeError
  else .ok value

/-! ### Concrete sample data used by witnesses and counterexamples -/

/-- A concrete regex matcher (stand-in for `re.search`) that never matches. -/
def noMatcher : String → String → Except Unit Bool := fun _ _ => .ok false

/-- A number field whose raw value is the string `"42"`. -/
def cNumber42 : CustomField := ⟨"n", "f1", "number", some (.vstr "42"), none⟩

/-- A number field whose raw value is the unparsable string `"abc"`. -/
def cNumberBad : CustomField := ⟨"n", "f1", "number", some (.vstr "abc"), none⟩

/-- A declared text field whose `"value"` key is absent. -/
def cUnsetText : CustomField := ⟨"u", "f2", "text", none, none⟩

/-- A task declaring no custom fields at all. -/
def cEmptyTask : PyTask := ⟨"t0", [], none, false, true⟩

/-- A task whose only field is the declared-but-unset text field. -/
def cUnsetTask : PyTask := ⟨"t1", [cUnsetText], none, false, true⟩

/-- A task whose number field `"n"` is set to `"42"`. -/
def cGoodTask : PyTask := ⟨"g", [cNumber42], none, false, true⟩

/-- A task whose number field `"n"` is set to the malformed `"abc"`. -/
def cBadTask : PyTask := ⟨"b", [cNumberBad], none, false, true⟩

/-! ### C4 — number normalization dispatches integer-first -/

/-- C4: normalizing a declared number field casts to `int` first: raw
`"42"` yields the integer `42`; raw `"3.14"` falls back to `float` and
yields `3.14` (= 157/50 exactly); raw `"abc"` raises the `TypeMismatch`
`ValueError` under either missing-value policy. -/
theorem C4_number_int_first (policy : Bool) (fld : CustomField)
    (ht : fld.ftype = "number") :
    (fld.value = some (.vstr "42") → normalizeField policy fld = .ok (.vint 42)) ∧
    (fld.value = some (.vstr "3.14") →
      normalizeField policy fld = .ok (.vfloat (mkRat 157 50))) ∧
    (fld.value = some (.vstr "abc") → normalizeField policy fld = .error .typeMismatch) := by
  refine ⟨fun hv => ?_, fun hv => ?_, fun hv => ?_⟩ <;>
    simp [normalizeField, normalizeBody, ht, getValue, hv] <;>
    rfl

/-- Witness for C4 at the concrete field `cNumber42` with the strict policy. -/
theorem C4_number_int_first_witness :
    cNumber42.ftype = "number" ∧ cNumber42.value = some (.vstr "42") ∧
    normalizeField true cNumber42 = .ok (.vint 42) :=
  ⟨rfl, rfl, (C4_number_int_first true cNumber42 rfl).1 rfl⟩

/-! ### C6 — the year-1970 timestamp-unit check -/

/-- C6: `ts_ms_to_dt` on raw value `0` (epoch, year 1970) raises the
`TimestampUnitError` `ValueError` when the check is enabled and returns the
epoch instant when it is disabled; an input whose calendar year is not 1970
never triggers the error; and the date normalization rule of `get_field`
runs the conversion with the check enabled. -/
theorem C6_date_1970_check :
    ts_ms_to_dt (.vint 0) true = .error .timestampUnit ∧
    ts_ms_to_dt (.vint 0) false = .ok (mkRat 0 1) ∧
    (∀ (v : PyVal) (b : Bool) (q : ℚ),
      msOfVal v = .ok q → yearOfMs q ≠ 1970 → ts_ms_to_dt v b = .ok q) ∧
    (∀ (policy : Bool) (fld : CustomField), fld.ftype = "date" →
      fld.value = some (.vint 0) → normalizeField policy fld = .error .timestampUnit) := by
  refine ⟨rfl, rfl, fun v b q hq hy => ?_, fun policy fld ht hv => ?_⟩
  · simp [ts_ms_to_dt, hq, hy, bind, Except.bind]
  · simp [normalizeField, normalizeBody, ht, getValue, hv]
    rfl

/-- Witness for C6's universal parts: a timestamp one day after the epoch
converts without error with the check on, and 1971-01-01 likewise. -/
theorem C6_date_1970_check_witness :
    msOfVal (.vint 31536000000) = .ok (mkRat 31536000000 1) ∧
    yearOfMs (mkRat 31536000000 1) ≠ 1970 ∧
    ts_ms_to_dt (.vint 31536000000) true = .ok (mkRat 31536000000 1) :=
  ⟨rfl, by decide, C6_date_1970_check.2.2.1 (.vint 31536000000) true
    (mkRat 31536000000 1) rfl (by decide)⟩

/-! ### C7 — asymmetric arity collapsing of `tasks` fields -/

/-- C7: a `tasks` field whose raw list has exactly one element normalizes
to that element itself; a raw list of two or more elements is returned
unchanged. -/
theorem C7_tasks_unwrap (policy : Bool) (fld : CustomField)
    (ht : fld.ftype = "tasks") :
    (∀ x, fld.value = some (.vlist [x]) → normalizeField policy fld = .ok x) ∧
    (∀ x y zs, fld.value = some (.vlist (x :: y :: zs)) →
      normalizeField policy fld = .ok (.vlist (x :: y :: zs))) := by
  constructor
  · intro x hv
    simp [normalizeField, normalizeBody, ht, getValue, hv, tasksUnwrap]
    rfl
  · intro x y zs hv
    simp [normalizeField, normalizeBody, ht, getValue, hv, tasksUnwrap]
    rfl

/-- Witness for C7 at a concrete one-element and two-element raw value. -/
theorem C7_tasks_unwrap_witness :
    normalizeField true ⟨"k", "f", "tasks", some (.vlist [.vobj "t1"]), none⟩
        = .ok (.vobj "t1") ∧
    normalizeField true ⟨"k", "f", "tasks", some (.vlist [.vobj "t1", .vobj "t2"]), none⟩
        = .ok (.vlist [.vobj "t1", .vobj "t2"]) :=
  ⟨(C7_tasks_unwrap true _ rfl).1 _ rfl, (C7_tasks_unwrap true _ rfl).2 _ _ _ rfl⟩

/-! ### C8 — the empty AND-filter is the identity -/

/-- C8: `filter_by_custom_fields` with an empty predicate list returns the
entire collection unchanged — the same `(task id, task record)` pairs, in
the same insertion order. -/
theorem C8_empty_filters_identity (matcher : String → String → Except Unit Bool)
    (tasks : List (String × PyTask)) :
    filter_by_custom_fields matcher tasks [] = .ok tasks := by
  induction tasks with
  | nil => rfl
  | cons p rest ih =>
    obtain ⟨tid, t⟩ := p
    simp [filter_by_custom_fields, evalAllFilters, ih]
    rfl

/-! ### C9 — subtask filtering precondition -/

/-- C9: `get_filtered_subtasks` on a task constructed without
`include_subtasks=True` raises the precondition `ValueError` for every
filter list; on a task constructed with subtask inclusion whose record has
no (or an empty) `subtasks` list it returns `[]` without raising. -/
theorem C9_subtask_precondition (matcher : String → String → Except Unit Bool)
    (task : PyTask) (filters : List CustomFieldFilter) :
    (task.include_subtasks = false →
      get_filtered_subtasks matcher task filters = .error .filterPrecondition) ∧
    (task.include_subtasks = true →
      task.subtasks = none ∨ task.subtasks = some [] →
      get_filtered_subtasks matcher task filters = .ok []) := by
  constructor
  · intro h
    simp [get_filtered_subtasks, h]
  · intro h hs
    rcases hs with hs | hs <;> simp [get_filtered_subtasks, h, hs]

/-- Witness for C9: a task fetched without subtasks raises, and one fetched
with subtask inclusion but an absent `subtasks` key returns `[]`. -/
theorem C9_subtask_precondition_witness :
    cGoodTask.include_subtasks = false ∧
    get_filtered_subtasks noMatcher cGoodTask [] = .error .filterPrecondition ∧
    get_filtered_subtasks noMatcher ⟨"t", [], none, true, true⟩ [] = .ok [] :=
  ⟨rfl, (C9_subtask_precondition noMatcher cGoodTask []).1 rfl,
    (C9_subtask_precondition noMatcher ⟨"t", [], none, true, true⟩ []).2 rfl (Or.inl rfl)⟩

/-! ### C10 — a genuine float raw value is silently truncated -/

/-- C10: a number field whose raw value is an actual (non-string) float is
accepted by the integer-first cast, which truncates toward zero: raw
`3.14` normalizes to the integer `3`, not a float, under either policy. -/
theorem C10_number_float_truncates (policy : Bool) (fld : CustomField)
    (ht : fld.ftype = "number") :
    (∀ q : ℚ, fld.value = some (.vfloat q) →
      normalizeField policy fld = .ok (.vint (ratTrunc q))) ∧
    (fld.value = some (.vfloat (mkRat 157 50)) →
      normalizeField policy fld = .ok (.vint 3)) := by
  constructor
  · intro q hv
    simp [normalizeField, normalizeBody, ht, getValue, hv, pyIntOfVal]
    rfl
  · intro hv
    simp [normalizeField, normalizeBody, ht, getValue, hv, pyIntOfVal]
    rfl

/-- Witness for C10 at the concrete raw float `3.14`. -/
theorem C10_number_float_truncates_witness :
    normalizeField true ⟨"n", "f", "number", some (.vfloat (mkRat 157 50)), none⟩
      = .ok (.vint 3) :=
  (C10_number_float_truncates true _ rfl).2 rfl

/-! ### C1 — what the evaluators do on the two missing-field conditions -/

/-- C1 counterexample: on a task that does not declare the field at all,
the collection evaluator's `IS_SET` does **not** resolve to a boolean —
its prelude catches only `MissingCustomFieldValue`, so the
`MissingCustomField` exception propagates. -/
theorem C1_is_set_raises_on_undeclared :
    get_field cEmptyTask "f" = .error .missingCustomField ∧
    evaluateFilter noMatcher cEmptyTask ⟨"f", .IS_SET, .vnone⟩
      = .error .missingCustomField :=
  ⟨rfl, rfl⟩

/-- C1 (amended): when `get_field` raises either missing-field condition,
every operator other than `IS_SET`/`IS_NOT_SET` evaluates to `False` in
both evaluators; the subtask evaluator's `IS_SET`/`IS_NOT_SET` resolve to
booleans on both conditions; the collection evaluator's
`IS_SET`/`IS_NOT_SET` resolve to booleans only on the declared-but-unset
condition and re-raise `MissingCustomField` on an undeclared field. -/
theorem C1_missing_field_policy (matcher : String → String → Except Unit Bool)
    (task : PyTask) (name : String) (op : FilterOperator) (operand : PyVal)
    (hmiss : get_field task name = .error .missingCustomField ∨
             get_field task name = .error .missingCustomFieldValue)
    (hop : op ≠ .IS_SET) (hop2 : op ≠ .IS_NOT_SET) :
    evaluateFilter matcher task ⟨name, op, operand⟩ = .ok false ∧
    evaluateSubtaskFilter matcher task ⟨name, op, operand⟩ = .ok false ∧
    evaluateSubtaskFilter matcher task ⟨name, .IS_SET, operand⟩ = .ok false ∧
    evaluateSubtaskFilter matcher task ⟨name, .IS_NOT_SET, operand⟩ = .ok true ∧
    (get_field task name = .error .missingCustomFieldValue →
      evaluateFilter matcher task ⟨name, .IS_SET, operand⟩ = .ok false ∧
      evaluateFilter matcher task ⟨name, .IS_NOT_SET, operand⟩ = .ok true) ∧
    (get_field task name = .error .missingCustomField →
      evaluateFilter matcher task ⟨name, .IS_SET, operand⟩
        = .error .missingCustomField ∧
      evaluateFilter matcher task ⟨name, .IS_NOT_SET, operand⟩
        = .error .missingCustomField) := by
  rcases hmiss with h | h <;>
    refine ⟨?_, ?_, ?_, ?_, fun h2 => ?_, fun h2 => ?_⟩ <;>
    cases op <;>
    simp_all [evaluateFilter, evaluateSubtaskFilter]

/-- Witness for C1 (amended) at a declared-but-unset field and `EQUALS`. -/
theorem C1_missing_field_policy_witness :
    get_field cUnsetTask "u" = .error .missingCustomFieldValue ∧
    evaluateFilter noMatcher cUnsetTask ⟨"u", .EQUALS, .vint 1⟩ = .ok false := by
  refine ⟨rfl, ?_⟩
  exact (C1_missing_field_policy noMatcher cUnsetTask "u" .EQUALS (.vint 1)
    (Or.inr rfl) (by decide) (by decide)).1

/-! ### C2 — complementarity of `IS_SET` and `IS_NOT_SET` -/

/-- C2 counterexample: on an undeclared field the collection evaluator's
`IS_SET` and `IS_NOT_SET` both raise `MissingCustomField` — neither
resolves to a boolean, so the pair is not "exactly one true, one false". -/
theorem C2_complement_fails_on_undeclared :
    evaluateFilter noMatcher cEmptyTask ⟨"f", .IS_SET, .vnone⟩
      = .error .missingCustomField ∧
    evaluateFilter noMatcher cEmptyTask ⟨"f", .IS_NOT_SET, .vnone⟩
      = .error .missingCustomField :=
  ⟨rfl, rfl⟩

/-- C2 (amended): whenever field lookup either succeeds or fails with one
of the two missing-field conditions, the subtask evaluator's `IS_SET` and
`IS_NOT_SET` are exact boolean complements; the collection evaluator's
are complements unless the field is undeclared, in which case both
re-raise `MissingCustomField`. -/
theorem C2_is_set_complement (matcher : String → String → Except Unit Bool)
    (task : PyTask) (name : String)
    (hok : ∀ e, get_field task name = .error e →
      e = .missingCustomField ∨ e = .missingCustomFieldValue) :
    (∃ b, evaluateSubtaskFilter matcher task ⟨name, .IS_SET, .vnone⟩ = .ok b ∧
      evaluateSubtaskFilter matcher task ⟨name, .IS_NOT_SET, .vnone⟩ = .ok !b) ∧
    (get_field task name ≠ .error .missingCustomField →
      ∃ b, evaluateFilter matcher task ⟨name, .IS_SET, .vnone⟩ = .ok b ∧
        evaluateFilter matcher task ⟨name, .IS_NOT_SET, .vnone⟩ = .ok !b) ∧
    (get_field task name = .error .missingCustomField →
      evaluateFilter matcher task ⟨name, .IS_SET, .vnone⟩
        = .error .missingCustomField ∧
      evaluateFilter matcher task ⟨name, .IS_NOT_SET, .vnone⟩
        = .error .missingCustomField) := by
  rcases hg : get_field task name with e | v
  · rcases hok e hg with he | he <;> subst he
    · exact ⟨⟨false, by simp [evaluateSubtaskFilter, hg], by simp [evaluateSubtaskFilter, hg]⟩,
        fun h => absurd rfl h,
        fun _ => ⟨by simp [evaluateFilter, hg], by simp [evaluateFilter, hg]⟩⟩
    · exact ⟨⟨false, by simp [evaluateSubtaskFilter, hg], by simp [evaluateSubtaskFilter, hg]⟩,
        fun _ => ⟨false, by simp [evaluateFilter, hg], by simp [evaluateFilter, hg]⟩,
        fun h => absurd (Except.error.inj h) (by decide)⟩
  · exact ⟨⟨true, by simp [evaluateSubtaskFilter, hg], by simp [evaluateSubtaskFilter, hg]⟩,
      fun _ => ⟨true, by simp [evaluateFilter, hg], by simp [evaluateFilter, hg]⟩,
      fun h => nomatch h⟩

/-- Witness for C2 (amended) at a declared-but-unset field: `IS_SET` is
false and `IS_NOT_SET` is true in the subtask evaluator. -/
theorem C2_is_set_complement_witness :
    evaluateSubtaskFilter noMatcher cUnsetTask ⟨"u", .IS_SET, .vnone⟩ = .ok false ∧
    evaluateSubtaskFilter noMatcher cUnsetTask ⟨"u", .IS_NOT_SET, .vnone⟩ = .ok true := by
  have hok : ∀ e, get_field cUnsetTask "u" = .error e →
      e = .missingCustomField ∨ e = .missingCustomFieldValue := by
    intro e he
    have h' : (Except.error .missingCustomFieldValue : Except PyErr PyVal)
        = .error e :=
      (rfl : get_field cUnsetTask "u" = .error .missingCustomFieldValue).symm.trans he
    exact Or.inr (Except.error.inj h').symm
  obtain ⟨b, h1, h2⟩ := (C2_is_set_complement noMatcher cUnsetTask "u" hok).1
  have hb : b = false :=
    Except.ok.inj (h1.symm.trans
      (rfl : evaluateSubtaskFilter noMatcher cUnsetTask ⟨"u", .IS_SET, .vnone⟩
        = .ok false))
  subst hb
  exact ⟨h1, h2⟩

/-! ### C3 — one task's TypeMismatch aborts the whole batch -/

/-- C3 counterexample: with a well-formed task (which matches the filter
on its own) and a task whose number field holds the unparsable `"abc"`,
`filter_by_custom_fields` raises the `TypeMismatch` `ValueError` instead
of returning the well-formed task. -/
theorem C3_batch_aborts :
    evalAllFilters noMatcher cGoodTask [⟨"n", .EQUALS, .vint 42⟩] = .ok true ∧
    filter_by_custom_fields noMatcher [("g", cGoodTask), ("b", cBadTask)]
      [⟨"n", .EQUALS, .vint 42⟩] = .error .typeMismatch ∧
    filter_by_custom_fields noMatcher [("b", cBadTask), ("g", cGoodTask)]
      [⟨"n", .EQUALS, .vint 42⟩] = .error .typeMismatch :=
  ⟨rfl, rfl, rfl⟩

/-- C3 (amended): `filter_by_custom_fields` does not isolate per-task
evaluation — as soon as evaluating some task raises (e.g. a
`TypeMismatch`), the exception propagates out of the whole call and no
result mapping is produced, regardless of the tasks around it. -/
theorem C3_error_propagates (matcher : String → String → Except Unit Bool)
    (pre : List (String × PyTask)) (bad : String × PyTask)
    (rest : List (String × PyTask)) (filters : List CustomFieldFilter) (e : PyErr)
    (hpre : ∀ p ∈ pre, ∃ b, evalAllFilters matcher p.2 filters = .ok b)
    (hbad : evalAllFilters matcher bad.2 filters = .error e) :
    filter_by_custom_fields matcher (pre ++ bad :: rest) filters = .error e := by
  induction pre with
  | nil =>
    obtain ⟨tid, t⟩ := bad
    simp only [List.nil_append, filter_by_custom_fields]
    rw [hbad]
    rfl
  | cons p pre' ih =>
    obtain ⟨tid, t⟩ := p
    obtain ⟨b, hb⟩ := hpre ⟨tid, t⟩ (List.mem_cons_self _ _)
    have ih' := ih (fun p hp => hpre p (List.mem_cons_of_mem _ hp))
    have ih'' : filter_by_custom_fields matcher (pre'.append (bad :: rest)) filters
        = .error e := ih'
    simp only [List.cons_append, filter_by_custom_fields]
    rw [hb, ih'']
    cases b <;> rfl

/-- Witness for C3 (amended) at the concrete two-task collection. -/
theorem C3_error_propagates_witness :
    evalAllFilters noMatcher cBadTask [⟨"n", .EQUALS, .vint 42⟩]
      = .error .typeMismatch ∧
    filter_by_custom_fields noMatcher [("g", cGoodTask), ("b", cBadTask)]
      [⟨"n", .EQUALS, .vint 42⟩] = .error .typeMismatch := by
  refine ⟨rfl, ?_⟩
  exact C3_error_propagates noMatcher [("g", cGoodTask)] ("b", cBadTask) []
    [⟨"n", .EQUALS, .vint 42⟩] .typeMismatch
    (by intro p hp
        rw [List.mem_singleton] at hp
        subst hp
        exact ⟨true, rfl⟩)
    rfl

/-! ### Supporting lemmas for the encode/normalize round trip -/

/-- A dropdown option with a matching display name makes `nameToOrder`
return some orderindex. -/
theorem nameToOrder_isSome (opts : List FieldOption) (s : String)
    (h : ∃ o ∈ opts, o.name = s) : ∃ k, nameToOrder opts s = some k := by
  induction opts with
  | nil => rcases h with ⟨o, ho, _⟩; cases ho
  | cons o rest ih =>
    rcases hr : nameToOrder rest s with _ | k
    · rcases h with ⟨o', ho', hname⟩
      rcases List.mem_cons.mp ho' with rfl | hmem
      · exact ⟨o'.orderindex, by simp [nameToOrder, hr, hname]⟩
      · obtain ⟨k, hk⟩ := ih ⟨o', hmem, hname⟩
        rw [hk] at hr
        cases hr
    · exact ⟨k, by simp [nameToOrder, hr]⟩

/-- When options carry orderindexes `base, base+1, …` in list order,
`nameToOrder opts s = some k` pins down a position `j` with `k = base + j`
whose option is named `s`. -/
theorem nameToOrder_positional (opts : List FieldOption) (s : String) (base : ℤ)
    (k : ℤ)
    (hpos : ∀ (i : ℕ) (h : i < opts.length), (opts.get ⟨i, h⟩).orderindex = base + i)
    (hk : nameToOrder opts s = some k) :
    ∃ (j : ℕ) (hj : j < opts.length), k = base + j ∧ (opts.get ⟨j, hj⟩).name = s := by
  induction opts generalizing base with
  | nil => cases hk
  | cons o rest ih =>
    have hrest : ∀ (i : ℕ) (h : i < rest.length),
        (rest.get ⟨i, h⟩).orderindex = (base + 1) + i := by
      intro i h
      have h' := hpos (i + 1) (Nat.succ_lt_succ h)
      rw [show ((o :: rest).get ⟨i + 1, Nat.succ_lt_succ h⟩) = rest.get ⟨i, h⟩ from rfl]
        at h'
      rw [h']
      push_cast
      ring
    rcases hr : nameToOrder rest s with _ | k'
    · have hk' : (if o.name = s then some o.orderindex else none) = some k := by
        rw [← hk]
        simp [nameToOrder, hr]
      by_cases hn : o.name = s
      · rw [if_pos hn] at hk'
        refine ⟨0, Nat.succ_pos _, ?_, hn⟩
        rw [← Option.some.inj hk']
        simpa using hpos 0 (Nat.succ_pos _)
      · rw [if_neg hn] at hk'
        cases hk'
    · have hkk : k' = k := by
        have hk' : (some k' : Option ℤ) = some k := by
          rw [← hk]
          simp [nameToOrder, hr]
        exact Option.some.inj hk'
      obtain ⟨j', hj', h1, h2⟩ := ih (base + 1) hrest (by rw [hkk] at hr; exact hr)
      refine ⟨j' + 1, Nat.succ_lt_succ hj', ?_, h2⟩
      rw [h1]
      push_cast
      ring

/-- Indexing a list of options by an in-range natural number. -/
theorem pyIndex_nat (opts : List FieldOption) (j : ℕ) (hj : j < opts.length) :
    pyIndex opts (.vint j) = .ok (opts.get ⟨j, hj⟩) := by
  have h0 : ¬ ((j : ℤ) < 0) := by omega
  have h1 : (0 : ℤ) ≤ (j : ℤ) := by omega
  have h2 : ((j : ℤ)).toNat < opts.length := by omega
  simp only [pyIndex, h0, if_false]
  rw [dif_pos ⟨h1, h2⟩]
  have h3 : (⟨((j : ℤ)).toNat, h2⟩ : Fin opts.length) = ⟨j, hj⟩ :=
    Fin.ext (show ((j : ℤ)).toNat = j by omega)
  rw [h3]

/-- A labels option with a matching label makes `labelToId` return some id. -/
theorem labelToId_isSome (opts : List FieldOption) (l : String)
    (h : ∃ o ∈ opts, o.label = l) : ∃ i, labelToId opts l = some i := by
  induction opts with
  | nil => rcases h with ⟨o, ho, _⟩; cases ho
  | cons o rest ih =>
    rcases hr : labelToId rest l with _ | i
    · rcases h with ⟨o', ho', hl⟩
      rcases List.mem_cons.mp ho' with rfl | hmem
      · exact ⟨o'.oid, by simp [labelToId, hr, hl]⟩
      · obtain ⟨i, hi⟩ := ih ⟨o', hmem, hl⟩
        rw [hi] at hr
        cases hr
    · exact ⟨i, by simp [labelToId, hr]⟩

/-- `labelToId` only returns ids of options carrying the requested label. -/
theorem labelToId_mem (opts : List FieldOption) (l : String) (i : String)
    (h : labelToId opts l = some i) : ∃ o ∈ opts, o.oid = i ∧ o.label = l := by
  induction opts with
  | nil => cases h
  | cons o rest ih =>
    rcases hr : labelToId rest l with _ | i'
    · have h' : (if o.label = l then some o.oid else none) = some i := by
        rw [← h]
        simp [labelToId, hr]
      by_cases hl : o.label = l
      · rw [if_pos hl] at h'
        exact ⟨o, List.mem_cons_self _ _, Option.some.inj h', hl⟩
      · rw [if_neg hl] at h'
        cases h'
    · have h' : i' = i := by
        have : (some i' : Option String) = some i := by
          rw [← h]
          simp [labelToId, hr]
        exact Option.some.inj this
      obtain ⟨o', ho', hoid, hl⟩ := ih (h' ▸ hr)
      exact ⟨o', List.mem_cons_of_mem _ ho', hoid, hl⟩

/-- `idToLabel` only succeeds on ids that some option carries. -/
theorem idToLabel_mem (opts : List FieldOption) (i : String) (l : String)
    (h : idToLabel opts i = some l) : ∃ o ∈ opts, o.oid = i := by
  induction opts generalizing l with
  | nil => cases h
  | cons o rest ih =>
    rcases hr : idToLabel rest i with _ | l'
    · have h' : (if o.oid = i then some o.label else none) = some l := by
        rw [← h]
        simp [idToLabel, hr]
      by_cases hi : o.oid = i
      · exact ⟨o, List.mem_cons_self _ _, hi⟩
      · rw [if_neg hi] at h'
        cases h'
    · obtain ⟨o', ho', hoid⟩ := ih l' hr
      exact ⟨o', List.mem_cons_of_mem _ ho', hoid⟩

/-- With pairwise-distinct option ids, `idToLabel` maps each option's id to
that option's label. -/
theorem idToLabel_nodup (opts : List FieldOption)
    (hnd : (opts.map FieldOption.oid).Nodup) (o : FieldOption) (ho : o ∈ opts) :
    idToLabel opts o.oid = some o.label := by
  induction opts with
  | nil => cases ho
  | cons o' rest ih =>
    rw [List.map_cons, List.nodup_cons] at hnd
    rcases List.mem_cons.mp ho with rfl | hmem
    · have hnone : idToLabel rest o.oid = none := by
        rcases hr : idToLabel rest o.oid with _ | l
        · rfl
        · obtain ⟨o'', ho'', hoid⟩ := idToLabel_mem rest o.oid l hr
          exact absurd (hoid ▸ List.mem_map_of_mem FieldOption.oid ho'') hnd.1
      simp [idToLabel, hnone]
    · have h := ih hnd.2 hmem
      simp [idToLabel, h]

/-- One label round-trips through `labelToId` then `idToLabel` when option
ids are pairwise distinct. -/
theorem label_roundtrip (opts : List FieldOption)
    (hnd : (opts.map FieldOption.oid).Nodup) (l : String) (i : String)
    (h : labelToId opts l = some i) : idToLabel opts i = some l := by
  obtain ⟨o, ho, hoid, hl⟩ := labelToId_mem opts l i h
  rw [← hoid, ← hl]
  exact idToLabel_nodup opts hnd o ho

/-- A list of resolvable labels round-trips through the write encoding
(`labelIdsEncode`) and the read normalization (`labelsDecode`). -/
theorem labels_list_roundtrip (opts : List FieldOption)
    (hnd : (opts.map FieldOption.oid).Nodup) (ls : List String)
    (hmem : ∀ l ∈ ls, ∃ o ∈ opts, o.label = l) :
    ∃ ids : List String,
      labelIdsEncode opts (ls.map PyVal.vstr) = .ok ids ∧
      labelsDecode opts (ids.map PyVal.vstr) = ls.map PyVal.vstr := by
  induction ls with
  | nil => exact ⟨[], rfl, rfl⟩
  | cons l ls' ih =>
    obtain ⟨i, hi⟩ := labelToId_isSome opts l (hmem l (List.mem_cons_self _ _))
    obtain ⟨ids', h1, h2⟩ := ih (fun l' hl' => hmem l' (List.mem_cons_of_mem _ hl'))
    refine ⟨i :: ids', ?_, ?_⟩
    · simp [labelIdsEncode, hi, h1, bind, Except.bind]
    · simp [labelsDecode, label_roundtrip opts hnd l i hi, h2]

/-! ### C5 — encode/normalize round trip for drop_down and labels -/

/-- Dropdown options whose orderindex disagrees with list position:
encoding resolves the display name to its orderindex but normalization
indexes the option list positionally. -/
def cDDBadOpts : List FieldOption := [⟨"", "A", "", 1⟩, ⟨"", "B", "", 0⟩]

/-- A dropdown field configured with `cDDBadOpts`. -/
def cDDBadFld : CustomField := ⟨"d", "fd", "drop_down", some (.vint 0), some cDDBadOpts⟩

/-- A task holding `cDDBadFld`. -/
def cDDBadTask : PyTask := ⟨"t", [cDDBadFld], none, false, true⟩

/-- `cDDBadFld` after writing the encoded value back. -/
def cDDBadWire : CustomField := ⟨"d", "fd", "drop_down", some (.vint 1), some cDDBadOpts⟩

/-- C5 counterexample: with options `A` (orderindex 1) and `B`
(orderindex 0), encoding the valid display name `"A"` produces wire value
`1`, which normalizes back to `"B"`, not `"A"` — the round trip fails for
this dropdown field. -/
theorem C5_roundtrip_fails :
    encodeValue cDDBadTask "d" (.vstr "A") = .ok (.vint 1) ∧
    normalizeField true cDDBadWire = .ok (.vstr "B") ∧
    ("B" : String) ≠ "A" :=
  ⟨rfl, rfl, by decide⟩

/-- C5 (amended): the round trip holds under the hypotheses the
counterexample forces.  For a drop_down field whose supplied value is the
display name of a configured option, does not itself parse as an integer,
and whose options carry orderindexes equal to their list positions,
`Normalize(Encode(name))` returns the name.  For a labels field whose
supplied value is a list of configured labels and whose option ids are
pairwise distinct, `Normalize(Encode(labels))` returns the label list. -/
theorem C5_encode_normalize_roundtrip
    (policy : Bool) (task : PyTask) (name : String) (fld : CustomField)
    (opts : List FieldOption)
    (hlk : lookupField task.custom_fields name = some fld)
    (htc : fld.type_config = some opts) :
    (∀ s : String,
      fld.ftype = "drop_down" →
      pyIntOfStr s = none →
      (∃ o ∈ opts, o.name = s) →
      (∀ (i : ℕ) (h : i < opts.length), (opts.get ⟨i, h⟩).orderindex = (i : ℤ)) →
      ∃ k : ℤ, encodeValue task name (.vstr s) = .ok (.vint k) ∧
        normalizeField policy { fld with value := some (.vint k) } = .ok (.vstr s)) ∧
    (∀ ls : List String,
      fld.ftype = "labels" →
      (∀ l ∈ ls, ∃ o ∈ opts, o.label = l) →
      (opts.map FieldOption.oid).Nodup →
      ∃ ids : List String,
        encodeValue task name (.vlist (ls.map PyVal.vstr))
          = .ok (.vlist (ids.map PyVal.vstr)) ∧
        normalizeField policy { fld with value := some (.vlist (ids.map PyVal.vstr)) }
          = .ok (.vlist (ls.map PyVal.vstr))) := by
  constructor
  · intro s hdd hint hmem hpos
    obtain ⟨k, hk⟩ := nameToOrder_isSome opts s hmem
    have hpos' : ∀ (i : ℕ) (h : i < opts.length),
        (opts.get ⟨i, h⟩).orderindex = (0 : ℤ) + i := by
      intro i h
      rw [hpos i h]
      ring
    obtain ⟨j, hj, hkj, hname⟩ := nameToOrder_positional opts s 0 k hpos' hk
    have hkj' : k = (j : ℤ) := by rw [hkj]; ring
    refine ⟨k, ?_, ?_⟩
    · simp [encodeValue, get_field_obj, hlk, hdd, getOptions, htc, hint, hk,
        pyIntOfVal, PyErr.isValueError, bind, Except.bind]
    · rw [hkj']
      simp only [normalizeField, normalizeBody]
      rw [if_neg (by rw [hdd]; decide), if_pos (by rw [hdd])]
      simp [getValue, getOptions, htc, pyIndex_nat opts j hj,
        bind, Except.bind]
      exact hname
  · intro ls hlb hmem hnd
    obtain ⟨ids, h1, h2⟩ := labels_list_roundtrip opts hnd ls hmem
    refine ⟨ids, ?_, ?_⟩
    · simp [encodeValue, get_field_obj, hlk, hlb, getOptions, htc, h1,
        bind, Except.bind]
    · simp only [normalizeField, normalizeBody]
      rw [if_neg (by rw [hlb]; decide), if_neg (by rw [hlb]; decide),
        if_pos (by rw [hlb])]
      simp [getValue, getOptions, htc, h2, bind, Except.bind]

/-- Well-configured dropdown options: positional orderindex. -/
def cDDGoodOpts : List FieldOption := [⟨"", "Low", "", 0⟩, ⟨"", "High", "", 1⟩]

/-- Labels options with distinct ids. -/
def cLblOpts : List FieldOption := [⟨"a", "", "Red", 0⟩, ⟨"c", "", "Blue", 1⟩]

/-- A task with one well-configured dropdown field and one labels field. -/
def cRoundTask : PyTask :=
  ⟨"t", [⟨"d", "fd", "drop_down", some (.vint 0), some cDDGoodOpts⟩,
         ⟨"l", "fl", "labels", some (.vlist []), some cLblOpts⟩], none, false, true⟩

/-- Witness for C5 (amended): `"High"` survives the dropdown round trip
and `["Red", "Blue"]` survives the labels round trip on concrete fields. -/
theorem C5_encode_normalize_roundtrip_witness :
    (∃ k : ℤ, encodeValue cRoundTask "d" (.vstr "High") = .ok (.vint k) ∧
      normalizeField true
          { name := "d", fid := "fd", ftype := "drop_down",
            value := some (.vint k), type_config := some cDDGoodOpts }
        = .ok (.vstr "High")) ∧
    (∃ ids : List String,
      encodeValue cRoundTask "l" (.vlist [.vstr "Red", .vstr "Blue"])
        = .ok (.vlist (ids.map PyVal.vstr)) ∧
      normalizeField true
          { name := "l", fid := "fl", ftype := "labels",
            value := some (.vlist (ids.map PyVal.vstr)), type_config := some cLblOpts }
        = .ok (.vlist [.vstr "Red", .vstr "Blue"])) := by
  constructor
  · exact (C5_encode_normalize_roundtrip true cRoundTask "d"
      ⟨"d", "fd", "drop_down", some (.vint 0), some cDDGoodOpts⟩ cDDGoodOpts
      rfl rfl).1 "High" rfl rfl
      ⟨⟨"", "High", "", 1⟩, by decide, rfl⟩
      (by decide)
  · have h := (C5_encode_normalize_roundtrip true cRoundTask "l"
      ⟨"l", "fl", "labels", some (.vlist []), some cLblOpts⟩ cLblOpts
      rfl rfl).2 ["Red", "Blue"] rfl
      (by intro l hl
          rcases List.mem_cons.mp hl with rfl | hl'
          · exact ⟨⟨"a", "", "Red", 0⟩, by decide, rfl⟩
          · rw [List.mem_singleton] at hl'
            subst hl'
            exact ⟨⟨"c", "", "Blue", 1⟩, by decide, rfl⟩)
      (by decide)
    simpa using h

end Clickuphelper
